import Mathlib

/-!
Verification development for the stacked-histogram plotting pipeline of the
hh-italian-group/Tools repository (`StackedPlotDescriptor` and its supporting
draw-options and histogram-to-graph utilities).

Real-valued bin contents, edges and errors of the C++ code (`double`) are
embedded as rationals (`ℚ`), so that every definition is executable and every
predicate decidable.  ROOT classes (`TH1`, `THStack`, `TGraphAsymmErrors`,
pads, legends) are external collaborators of the repository; they are modelled
only through the narrow interface the repository uses.
-/

namespace AnalysisTools

/-! ### Ranges and multi-ranges

Modelled from the spec: `analysis::Range` / `analysis::MultiRange` live in
`Core/include/NumericPrimitives.h`, which is not among the provided sources.
The spec describes a range as "a half-open or boundary-inclusive interval over
the x-axis" and a multi-range as a set of such intervals; two ranges overlap
when some point lies in both. -/

/-- Boundary conventions for `Range`, as used by the sources:
`MinIncluded` is the half-open `[min, max)`, `BothIncluded` is `[min, max]`. -/
inductive RangeBoundaries where
  | BothIncluded : RangeBoundaries
  | MinIncluded : RangeBoundaries
deriving DecidableEq, Repr

/-- An interval over the x-axis with explicit boundary convention. -/
structure Range where
  min : ℚ
  max : ℚ
  boundaries : RangeBoundaries
deriving DecidableEq, Repr

/-- Membership of a point in a range, following the boundary convention. -/
def Range.ContainsB (r : Range) (x : ℚ) : Bool :=
  match r.boundaries with
  | RangeBoundaries.MinIncluded => decide (r.min ≤ x ∧ x < r.max)
  | RangeBoundaries.BothIncluded => decide (r.min ≤ x ∧ x ≤ r.max)

/-- Two ranges overlap when their intersection is non-empty: either the
common interior `(max of mins, min of maxs)` is non-empty, or the two ranges
touch at a single point that both contain. -/
def Range.Overlaps (r1 r2 : Range) : Bool :=
  let lo := Max.max r1.min r2.min
  let hi := Min.min r1.max r2.max
  decide (lo < hi) || (decide (lo = hi) && r1.ContainsB lo && r2.ContainsB lo)

/-- A multi-range is a finite collection of ranges. -/
abbrev MultiRange : Type := List Range

/-- A multi-range overlaps a range when any of its members does. -/
def MultiRange.Overlaps (mr : MultiRange) (r : Range) : Bool :=
  List.any mr (fun m => Range.Overlaps m r)

/-- The empty multi-range, `MultiRange()` in the sources. -/
def MultiRange.empty : MultiRange := []

/-! ### Histograms (`TH1`)

`TH1` is a ROOT class (external collaborator).  We keep exactly the data the
repository reads through its interface: the `N+1` bin low edges, the `N` bin
contents, and the per-bin lower/upper statistical errors as stored on the
histogram (`GetBinErrorLow` / `GetBinErrorUp`).  Bins are numbered `1..N` as
in ROOT. -/

structure TH1 where
  /-- Low edges of bins `1..N` followed by the upper edge of bin `N`
  (length `N+1`). -/
  edges : List ℚ
  /-- Contents of bins `1..N`. -/
  contents : List ℚ
  /-- Lower statistical error of bins `1..N`, as stored on the histogram. -/
  errLow : List ℚ
  /-- Upper statistical error of bins `1..N`, as stored on the histogram. -/
  errUp : List ℚ
deriving DecidableEq, Repr

def TH1.GetNbinsX (h : TH1) : ℕ := h.contents.length

/-- `GetBinLowEdge(bin)` for `bin = 1..N+1` (1-based as in ROOT). -/
def TH1.GetBinLowEdge (h : TH1) (bin : ℕ) : ℚ := h.edges.getD (bin - 1) 0

def TH1.GetBinWidth (h : TH1) (bin : ℕ) : ℚ :=
  h.GetBinLowEdge (bin + 1) - h.GetBinLowEdge bin

def TH1.GetBinCenter (h : TH1) (bin : ℕ) : ℚ :=
  h.GetBinLowEdge bin + h.GetBinWidth bin / 2

def TH1.GetBinContent (h : TH1) (bin : ℕ) : ℚ := h.contents.getD (bin - 1) 0

def TH1.GetBinErrorLow (h : TH1) (bin : ℕ) : ℚ := h.errLow.getD (bin - 1) 0

def TH1.GetBinErrorUp (h : TH1) (bin : ℕ) : ℚ := h.errUp.getD (bin - 1) 0

/-! ### Histogram-to-graph conversion (`plotting::HistogramToGraph`,
`Print/include/RootPrintTools.h`, lines 145-172)

The source iterates bins left to right, skips every bin whose half-open
interval `[low_edge, next_low_edge)` overlaps the blind ranges, and pushes one
point per retained bin; with `divide_by_bin_width` set, the y value and its
two errors are divided by the bin width afterwards. -/

/-- One point of a `TGraphAsymmErrors`: x/y value with asymmetric errors. -/
structure GraphPoint where
  x : ℚ
  exl : ℚ
  exh : ℚ
  y : ℚ
  eyl : ℚ
  eyh : ℚ
deriving DecidableEq, Repr

/-- The half-open bin interval `[low_edge, next_low_edge)` built by the loop
body of `HistogramToGraph` (`RangeBoundaries::MinIncluded`). -/
def binRange (hist : TH1) (bin : ℕ) : Range :=
  { min := hist.GetBinLowEdge bin, max := hist.GetBinLowEdge (bin + 1),
    boundaries := RangeBoundaries.MinIncluded }

/-- The point pushed for a retained bin: bin center with distances to the two
edges as x-errors, content with stored lower/upper errors as y-values, all
three y components divided by the bin width when requested. -/
def mkGraphPoint (hist : TH1) (divide_by_bin_width : Bool) (bin : ℕ) : GraphPoint :=
  let x := hist.GetBinCenter bin
  let y := hist.GetBinContent bin
  let eyl := hist.GetBinErrorLow bin
  let eyh := hist.GetBinErrorUp bin
  let bin_width := hist.GetBinWidth bin
  { x := x
    exl := x - hist.GetBinLowEdge bin
    exh := hist.GetBinLowEdge (bin + 1) - x
    y := if divide_by_bin_width then y / bin_width else y
    eyl := if divide_by_bin_width then eyl / bin_width else eyl
    eyh := if divide_by_bin_width then eyh / bin_width else eyh }

/-- `plotting::HistogramToGraph`: one point per bin `1..N`, except that a bin
whose half-open interval overlaps any blind range is skipped entirely. -/
def HistogramToGraph (hist : TH1) (divide_by_bin_width : Bool)
    (blind_ranges : MultiRange) : List GraphPoint :=
  (List.range' 1 hist.GetNbinsX).filterMap fun bin =>
    if MultiRange.Overlaps blind_ranges (binRange hist bin) then none
    else some (mkGraphPoint hist divide_by_bin_width bin)

/-- The bins `1..N` that survive the blinding mask, in order. -/
def retainedBins (hist : TH1) (blind_ranges : MultiRange) : List ℕ :=
  (List.range' 1 hist.GetNbinsX).filter
    fun bin => !(MultiRange.Overlaps blind_ranges (binRange hist bin))

lemma length_filterMap_if {α β : Type} (p : α → Bool) (g : α → β) (l : List α) :
    (l.filterMap fun b => if p b then none else some (g b)).length
      + l.countP p = l.length := by
  induction l with
  | nil => simp
  | cons a t ih =>
      by_cases hp : p a = true
      · simp [List.filterMap_cons, List.countP_cons, hp]
        omega
      · simp only [Bool.not_eq_true] at hp
        simp [List.filterMap_cons, List.countP_cons, hp]
        omega

lemma countP_le_length {α : Type} (p : α → Bool) (l : List α) :
    l.countP p ≤ l.length := by
  induction l with
  | nil => simp
  | cons a t ih =>
      by_cases hp : p a = true <;> simp [List.countP_cons, hp] <;> omega

/-- `HistogramToGraph` is the per-retained-bin map over `retainedBins`. -/
lemma histogramToGraph_eq_map (hist : TH1) (d : Bool) (br : MultiRange) :
    HistogramToGraph hist d br = (retainedBins hist br).map (mkGraphPoint hist d) := by
  unfold HistogramToGraph retainedBins
  induction (List.range' 1 hist.GetNbinsX) with
  | nil => simp
  | cons a t ih =>
      by_cases hp : MultiRange.Overlaps br (binRange hist a) = true
      · simp [List.filterMap_cons, List.filter_cons, hp, ih]
      · simp only [Bool.not_eq_true] at hp
        simp [List.filterMap_cons, List.filter_cons, hp, ih]

/-! ### Draw options (`Print/include/DrawOptions.h`)

Colors are opaque style values for the descriptor; an integer color code
suffices for the embedding. -/

/-- A ROOT color code. -/
abbrev Color : Type := Int

/-- Per-role histogram draw options (`draw_options::Histogram`).  The fields
are the ones `StackedPlotDescriptor` reads.  The sources under `src/` carry an
earlier revision of this struct; the fields `marker_style`, `marker_size`,
`marker_color`, `blind`, `unc_hist` and the accessor `DrawUnc` used by
`StackedPlotDescriptor.h` are modelled from the spec: per-role options carry
"fill/line/marker style codes, draw-option string, a legend style string, and
legend title", plus "an uncertainty-enable flag plus a reference to another
named section when enabled". -/
structure HistOptions where
  fill_style : Int := 0
  line_style : Int := 2
  legend_style : String := "f"
  draw_unc : Bool := false
  unc_hist : String := ""
  fill_color : Color := (0 : Int)
  line_color : Color := (0 : Int)
  marker_style : Int := 0
  marker_size : ℚ := 1
  marker_color : Color := (0 : Int)
  draw_opt : String := ""
  line_width : Int := 2
  legend_title : String := ""
  blind : Bool := false
deriving DecidableEq, Repr

/-- Modelled from the spec: whether the background options declare uncertainty
drawing enabled (the uncertainty-enable flag; the accessor itself belongs to
the `DrawOptions.h` revision not among the provided sources). -/
def HistOptions.DrawUnc (o : HistOptions) : Bool := o.draw_unc

/-- The page options read and written by `StackedPlotDescriptor`
(`draw_options::Page`): only the fields the descriptor touches are kept. -/
structure PageOptions where
  x_title : String := ""
  y_title : String := ""
  divide_by_bin_width : Bool := false
  log_x : Bool := false
  log_y : Bool := false
  y_max_sf : ℚ := 12/10
deriving DecidableEq, Repr

/-- A configuration item (`analysis::PropertyConfigReader::Item`).  Modelled
from the spec: the parser that turns key/value text into typed option structs
is an external collaborator, so an item is identified with the histogram
options parsed from it (`HistOptions(item)` is the identity). -/
abbrev Item : Type := HistOptions

/-- `HistOptions(item)`: parsing an item into typed options. -/
def HistOptionsOfItem (item : Item) : HistOptions := item

/-- `draw_options::ItemCollection`: a name-keyed collection of configuration
items (`std::map`, unique keys; `find` is keyed lookup). -/
abbrev ItemCollection : Type := List (String × Item)

/-- `opt_items.find(name)`, as keyed lookup. -/
def ItemCollection.find (items : ItemCollection) (name : String) : Option Item :=
  List.lookup name items

/-! ### Smart histograms

`SmartHistogram<TH1D>` (from `Core/include/SmartHistogram.h`, not among the
provided sources) is modelled from the spec: a histogram plus derived
attributes "log-x/log-y preference, 'divide by bin width' flag, axis titles,
max-Y draw scale factor", blind ranges, a legend title, and the style state
set through the ROOT setters used by the descriptor. -/

structure Hist where
  th1 : TH1
  /-- `UseLogX()`. -/
  use_log_x : Bool := false
  /-- `UseLogY()`. -/
  use_log_y : Bool := false
  /-- `MaxYDrawScaleFactor()`. -/
  max_y_sf : ℚ := 1
  /-- `GetXTitle()`. -/
  x_title : String := ""
  /-- `GetYTitle()`. -/
  y_title : String := ""
  /-- `NeedToDivideByBinWidth()`. -/
  need_divide_by_bin_width : Bool := false
  /-- `GetBlindRanges()`. -/
  blind_ranges : MultiRange := []
  /-- `GetLegendTitle()` / `SetLegendTitle(...)`. -/
  legend_title : String := ""
  /-- `SetBinErrorOption(TH1::kPoisson)` was applied. -/
  bin_error_poisson : Bool := false
  fill_style : Int := 0
  fill_color : Color := (0 : Int)
  line_style : Int := 0
  line_width : Int := 0
  line_color : Color := (0 : Int)
  marker_style : Int := 0
  marker_size : ℚ := 1
  marker_color : Color := (0 : Int)
deriving DecidableEq, Repr

/-- `TH1::Add(other, w)` restricted to what the repository relies on.
Modelled from the spec: "Compute the element-wise sum of all background
histograms (order-independent; pure addition)" — bin contents are added
element-wise with weight `w`.  ROOT's statistical-error propagation
(quadrature) is external and is read by none of the verified properties, so
the stored errors of the receiver are left as they are. -/
def TH1.Add (h1 h2 : TH1) (w : ℚ) : TH1 :=
  { h1 with contents := List.zipWith (fun a b => a + w * b) h1.contents h2.contents }

/-- `TH1::Scale(sf)`: bin contents and stored errors scale by `sf`. -/
def TH1.Scale (h : TH1) (sf : ℚ) : TH1 :=
  { h with contents := h.contents.map (sf * ·),
           errLow := h.errLow.map (sf * ·),
           errUp := h.errUp.map (sf * ·) }

/-- `root_ext::DivideByBinWidth` (from `Core/include/RootExt.h`, not among
the provided sources).  Modelled from the spec: divides each bin's content and
errors by the bin's width. -/
def DivideByBinWidth (h : TH1) : TH1 :=
  { h with
    contents := (List.range' 1 h.GetNbinsX).map
      (fun bin => h.GetBinContent bin / h.GetBinWidth bin)
    errLow := (List.range' 1 h.GetNbinsX).map
      (fun bin => h.GetBinErrorLow bin / h.GetBinWidth bin)
    errUp := (List.range' 1 h.GetNbinsX).map
      (fun bin => h.GetBinErrorUp bin / h.GetBinWidth bin) }

def Hist.Add (h1 h2 : Hist) (w : ℚ) : Hist := { h1 with th1 := h1.th1.Add h2.th1 w }

def Hist.Scale (h : Hist) (sf : ℚ) : Hist := { h with th1 := h.th1.Scale sf }

def Hist.DivideByBinWidth (h : Hist) : Hist :=
  { h with th1 := AnalysisTools.DivideByBinWidth h.th1 }

/-! ### StackedPlotDescriptor (`Print/include/StackedPlotDescriptor.h`) -/

structure StackedPlotDescriptor where
  signals : List Hist := []
  backgrounds : List Hist := []
  data : Option Hist := none
  page_opt : PageOptions
  signal_opt : HistOptions
  bkg_opt : HistOptions
  data_opt : HistOptions
  bkg_unc_opt : Option HistOptions := none
deriving DecidableEq, Repr

/-- The `StackedPlotDescriptor` constructor (lines 25-47): resolve the three
mandatory per-role option sections, then — only when the background options
enable uncertainty drawing — the named uncertainty section.  A missing
section aborts construction with the corresponding message. -/
def StackedPlotDescriptor.construct (page_opt : PageOptions)
    (opt_items : ItemCollection) : Except String StackedPlotDescriptor :=
  match opt_items.find "sgn_hist" with
  | none => Except.error "Options to draw signal histograms not found."
  | some sgn_item =>
    let signal_opt := HistOptionsOfItem sgn_item
    match opt_items.find "bkg_hist" with
    | none => Except.error "Options to draw background histograms not found."
    | some bkg_item =>
      let bkg_opt := HistOptionsOfItem bkg_item
      match opt_items.find "data_hist" with
      | none => Except.error "Options to draw data histogram not found."
      | some data_item =>
        let data_opt := HistOptionsOfItem data_item
        if bkg_opt.DrawUnc then
          match opt_items.find bkg_opt.unc_hist with
          | none => Except.error "Options to draw background uncertainties not found."
          | some unc_item =>
            Except.ok { page_opt := page_opt, signal_opt := signal_opt, bkg_opt := bkg_opt,
                        data_opt := data_opt, bkg_unc_opt := some (HistOptionsOfItem unc_item) }
        else
          Except.ok { page_opt := page_opt, signal_opt := signal_opt, bkg_opt := bkg_opt,
                      data_opt := data_opt, bkg_unc_opt := none }

/-- `UpdatePageOptions` (lines 140-148): overwrite the shared page options
with the derived attributes of `hist`. -/
def UpdatePageOptions (page_opt : PageOptions) (hist : Hist) : PageOptions :=
  { page_opt with
    log_x := hist.use_log_x
    log_y := hist.use_log_y
    y_max_sf := hist.max_y_sf
    x_title := hist.x_title
    y_title := hist.y_title
    divide_by_bin_width := hist.need_divide_by_bin_width }

/-- `ApplyHistOptions` (lines 150-161): copy the style fields of `opt` onto
the item. -/
def ApplyHistOptions (hist : Hist) (opt : HistOptions) : Hist :=
  { hist with
    fill_style := opt.fill_style
    fill_color := opt.fill_color
    line_style := opt.line_style
    line_width := opt.line_width
    line_color := opt.line_color
    marker_style := opt.marker_style
    marker_size := opt.marker_size
    marker_color := opt.marker_color }

/-- `ApplyHistOptionsEx` (lines 163-167): style plus legend title. -/
def ApplyHistOptionsEx (hist : Hist) (opt : HistOptions) : Hist :=
  { ApplyHistOptions hist opt with legend_title := opt.legend_title }

/-- `PrepareHistogram` (lines 170-185): copy the original histogram, switch
data to Poisson bin errors or divide a bin-width-flagged histogram by bin
widths, apply the per-histogram copy of the role options, and overwrite the
shared page options from the prepared histogram.  Returns the prepared copy
together with the updated page options (the source mutates `page_opt` in
place). -/
def StackedPlotDescriptor.PrepareHistogram (st : StackedPlotDescriptor)
    (original_histogram : Hist) (opt : HistOptions) (legend_title : String)
    (line_color fill_color : Color) (is_data : Bool) : Hist × PageOptions :=
  let hist := original_histogram
  let hist :=
    if is_data then { hist with bin_error_poisson := true }
    else if hist.need_divide_by_bin_width then hist.DivideByBinWidth
    else hist
  let opt_copy := { opt with fill_color := fill_color, line_color := line_color,
                             legend_title := legend_title }
  let hist := ApplyHistOptionsEx hist opt_copy
  (hist, UpdatePageOptions st.page_opt hist)

/-- `AddSignalHistogram` (lines 49-55). -/
def StackedPlotDescriptor.AddSignalHistogram (st : StackedPlotDescriptor)
    (original_hist : Hist) (legend_title : String) (color : Color)
    (scale_factor : ℚ) : StackedPlotDescriptor :=
  let (hist, page_opt) := st.PrepareHistogram original_hist st.signal_opt legend_title
      color st.signal_opt.fill_color false
  let hist := hist.Scale scale_factor
  { st with signals := st.signals ++ [hist], page_opt := page_opt }

/-- `AddBackgroundHistogram` (lines 57-61). -/
def StackedPlotDescriptor.AddBackgroundHistogram (st : StackedPlotDescriptor)
    (original_hist : Hist) (legend_title : String) (color : Color) :
    StackedPlotDescriptor :=
  let (hist, page_opt) := st.PrepareHistogram original_hist st.bkg_opt legend_title
      st.bkg_opt.line_color color false
  { st with backgrounds := st.backgrounds ++ [hist], page_opt := page_opt }

/-- `AddDataHistogram` (lines 63-68): rejected before any state is touched
when a data histogram is already set. -/
def StackedPlotDescriptor.AddDataHistogram (st : StackedPlotDescriptor)
    (original_hist : Hist) (legend_title : String) :
    Except String StackedPlotDescriptor :=
  match st.data with
  | some _ => Except.error "Only one data histogram per stack is supported."
  | none =>
    let (hist, page_opt) := st.PrepareHistogram original_hist st.data_opt legend_title
        st.data_opt.line_color st.data_opt.fill_color true
    Except.ok { st with data := some hist, page_opt := page_opt }

/-- `HasPrintableContent` (line 70). -/
def StackedPlotDescriptor.HasPrintableContent (st : StackedPlotDescriptor) : Bool :=
  !st.signals.isEmpty || !st.backgrounds.isEmpty || st.data.isSome

/-- The loop body of `CreateSumHistogram` on a non-empty list: copy the first
histogram, then `Add` each remaining one with weight `1`. -/
def CreateSumHistogramNE (h0 : Hist) (rest : List Hist) : Hist :=
  rest.foldl (fun acc h => acc.Add h 1) h0

/-- `CreateSumHistogram` (lines 187-196). -/
def CreateSumHistogram (hists : List Hist) : Except String Hist :=
  match hists with
  | [] => Except.error "Unable to create sum histogram."
  | h0 :: rest => Except.ok (CreateSumHistogramNE h0 rest)

/-! ### The render pass (`Draw`, lines 72-137)

`Draw` is modelled by the observable artifacts it produces: the histograms
added to the `THStack` (in the order `stack->Add` receives them), the
background sum, the sequence of items drawn on the main pad (each `DrawItem`
call, in order), the artifacts pushed to `plot_items`, and the legend entries
(each `legend->AddEntry` call, in order).  Pure graphics state — pad log
flags, axis title/label styling, the `first_draw` axis-establishment
bookkeeping, and the ratio-pad phase — is not read by any verified property
and is not modelled. -/

/-- An item drawn on the main pad by one `DrawItem` call. -/
inductive MainItem where
  | stackItem : List Hist → MainItem
  | uncBand : Hist → MainItem
  | signalItem : Hist → MainItem
  | dataGraph : List GraphPoint → MainItem
deriving DecidableEq, Repr

/-- The object a legend entry references.  `uncBand` records the value of the
`bkg_sum_hist` shared pointer at the time of `AddEntry` — `none` models the
null pointer. -/
inductive LegendRef where
  | dataGraph : List GraphPoint → LegendRef
  | uncBand : Option Hist → LegendRef
  | histRef : Hist → LegendRef
deriving DecidableEq, Repr

/-- One `legend->AddEntry(object, title, style)` call. -/
structure LegendEntry where
  ref : LegendRef
  title : String
  style : String
deriving DecidableEq, Repr

/-- The observable outcome of `Draw`. -/
structure DrawResult where
  /-- The histograms added to the `THStack`, in the order added
  (`none` when no stack is created). -/
  stack : Option (List Hist)
  /-- The value of the `bkg_sum_hist` local at the end of the main-pad phase
  (`none` models the never-assigned, null shared pointer). -/
  bkg_sum_hist : Option Hist
  /-- The items drawn on the main pad, in `DrawItem` order. -/
  main_drawn : List MainItem
  /-- The artifacts pushed to the caller-owned `plot_items` list. -/
  plot_items : List MainItem
  /-- The legend entries, in `AddEntry` order (`none` when no legend was
  passed). -/
  legend_entries : Option (List LegendEntry)
deriving DecidableEq, Repr

/-- `Draw` (lines 72-137), keeping the source's sequencing: background stack
(built over `backgrounds` in reverse order) and optional uncertainty band
first, then the signals, then the data graph, then the legend entries. -/
def StackedPlotDescriptor.Draw (st : StackedPlotDescriptor) (has_legend : Bool) :
    DrawResult :=
  let (stack_opt, bkg_sum_hist, bkg_items) :=
    match st.backgrounds with
    | [] => (none, none, ([] : List MainItem))
    | b0 :: rest =>
      let stack := ((b0 :: rest).reverse).foldl (fun acc h => acc ++ [h]) ([] : List Hist)
      let sum_hist := CreateSumHistogramNE b0 rest
      match st.bkg_unc_opt with
      | some unc_opt =>
        let sum_hist := ApplyHistOptionsEx sum_hist unc_opt
        (some stack, some sum_hist, [MainItem.stackItem stack, MainItem.uncBand sum_hist])
      | none => (some stack, some sum_hist, [MainItem.stackItem stack])
  let signal_items := st.signals.foldl
    (fun acc s => acc ++ [MainItem.signalItem s]) ([] : List MainItem)
  let (data_graph, data_items) :=
    match st.data with
    | some d =>
      let blind_ranges := if st.data_opt.blind then d.blind_ranges else MultiRange.empty
      let g := HistogramToGraph d.th1 st.page_opt.divide_by_bin_width blind_ranges
      (some (d, g), [MainItem.dataGraph g])
    | none => (none, ([] : List MainItem))
  let legend_entries :=
    if has_legend then
      let entries : List LegendEntry :=
        match data_graph with
        | some (d, g) =>
          [{ ref := LegendRef.dataGraph g, title := d.legend_title,
             style := st.data_opt.legend_style }]
        | none => []
      let entries :=
        match st.bkg_unc_opt with
        | some unc_opt =>
          entries ++ [{ ref := LegendRef.uncBand bkg_sum_hist,
                        title := unc_opt.legend_title, style := unc_opt.legend_style }]
        | none => entries
      let entries := st.signals.foldl
        (fun acc s => acc ++ [{ ref := LegendRef.histRef s, title := s.legend_title,
                                style := st.signal_opt.legend_style }]) entries
      let entries := st.backgrounds.foldl
        (fun acc b => acc ++ [{ ref := LegendRef.histRef b, title := b.legend_title,
                                style := st.bkg_opt.legend_style }]) entries
      some entries
    else none
  { stack := stack_opt
    bkg_sum_hist := bkg_sum_hist
    main_drawn := bkg_items ++ signal_items ++ data_items
    plot_items := bkg_items ++ data_items
    legend_entries := legend_entries }

/-! ### General helper lemmas -/

lemma foldl_append_singleton {α β : Type} (f : α → β) (l : List α) (init : List β) :
    l.foldl (fun acc a => acc ++ [f a]) init = init ++ l.map f := by
  induction l generalizing init with
  | nil => simp
  | cons a t ih => simp [List.foldl_cons, ih]

lemma foldl_append_id {α : Type} (l : List α) (init : List α) :
    l.foldl (fun acc a => acc ++ [a]) init = init ++ l := by
  have h := foldl_append_singleton (fun a => a) l init
  simpa using h

lemma foldr_append_singleton_reverse {α : Type} (l : List α) :
    List.foldr (fun x y => y ++ [x]) [] l = l.reverse := by
  induction l with
  | nil => simp
  | cons a t ih => simp [ih]

lemma add_contents_length (h1 h2 : Hist) (n : ℕ)
    (l1 : h1.th1.contents.length = n) (l2 : h2.th1.contents.length = n) :
    (h1.Add h2 1).th1.contents.length = n := by
  simp [Hist.Add, TH1.Add, l1, l2]

lemma add_contents_getD (h1 h2 : Hist) (n i : ℕ)
    (l1 : h1.th1.contents.length = n) (l2 : h2.th1.contents.length = n) (hi : i < n) :
    (h1.Add h2 1).th1.contents.getD i 0 =
      h1.th1.contents.getD i 0 + h2.th1.contents.getD i 0 := by
  simp only [Hist.Add, TH1.Add]
  rw [List.getD_eq_getElem _ _ (by simp [l1, l2]; omega),
      List.getD_eq_getElem _ _ (by omega),
      List.getD_eq_getElem _ _ (by omega),
      List.getElem_zipWith]
  ring

lemma createSumHistogramNE_contents (rest : List Hist) (h0 : Hist) (n : ℕ)
    (l0 : h0.th1.contents.length = n) (lr : ∀ h ∈ rest, h.th1.contents.length = n) :
    (CreateSumHistogramNE h0 rest).th1.contents.length = n ∧
    ∀ i, i < n → (CreateSumHistogramNE h0 rest).th1.contents.getD i 0 =
      h0.th1.contents.getD i 0 + (rest.map (fun h => h.th1.contents.getD i 0)).sum := by
  induction rest generalizing h0 with
  | nil => simp [CreateSumHistogramNE, l0]
  | cons h t ih =>
    have lh : h.th1.contents.length = n := lr h (by simp)
    have lt : ∀ x ∈ t, x.th1.contents.length = n := fun x hx => lr x (by simp [hx])
    have l1 : (h0.Add h 1).th1.contents.length = n := add_contents_length h0 h n l0 lh
    have hrec := ih (h0.Add h 1) l1 lt
    have heq : CreateSumHistogramNE h0 (h :: t) = CreateSumHistogramNE (h0.Add h 1) t := rfl
    refine ⟨by rw [heq]; exact hrec.1, ?_⟩
    intro i hi
    rw [heq, hrec.2 i hi, add_contents_getD h0 h n i l0 lh hi]
    simp only [List.map_cons, List.sum_cons]
    ring

/-! ### Verified properties -/

/-- C1: for every histogram and every set of blind ranges, the graph returned
by `HistogramToGraph` has exactly `total_bins` minus the number of bins whose
half-open interval overlaps any blind range points; a bin overlapping a blind
range is skipped entirely (the graph is the point-for-point image of the
retained bins, with no point, zeroed or otherwise, for a blinded bin and no
merging across the gap). -/
theorem histogramToGraph_point_count (hist : TH1) (d : Bool) (br : MultiRange) :
    (HistogramToGraph hist d br).length =
      hist.GetNbinsX -
        (List.range' 1 hist.GetNbinsX).countP
          (fun bin => MultiRange.Overlaps br (binRange hist bin)) ∧
    HistogramToGraph hist d br = (retainedBins hist br).map (mkGraphPoint hist d) := by
  refine ⟨?_, histogramToGraph_eq_map hist d br⟩
  have h := length_filterMap_if
    (fun bin => MultiRange.Overlaps br (binRange hist bin))
    (mkGraphPoint hist d) (List.range' 1 hist.GetNbinsX)
  have hlen : (List.range' 1 hist.GetNbinsX).length = hist.GetNbinsX :=
    List.length_range' ..
  unfold HistogramToGraph
  omega

/-- C2: for every non-empty list of prepared background histograms (over a
common binning), `CreateSumHistogram` succeeds and every bin of the result
carries the arithmetic sum of that bin's contents across all inputs; summing
any permutation of the list gives the same per-bin contents. -/
theorem createSumHistogram_sum_perm (hists hists' : List Hist) (n : ℕ)
    (hne : hists ≠ []) (hlen : ∀ h ∈ hists, h.th1.contents.length = n)
    (hperm : hists.Perm hists') :
    ∃ s s', CreateSumHistogram hists = Except.ok s ∧
      CreateSumHistogram hists' = Except.ok s' ∧
      ∀ i, i < n →
        s.th1.contents.getD i 0 = (hists.map (fun h => h.th1.contents.getD i 0)).sum ∧
        s'.th1.contents.getD i 0 = s.th1.contents.getD i 0 := by
  have hlen' : ∀ h ∈ hists', h.th1.contents.length = n :=
    fun h hh => hlen h (hperm.symm.mem_iff.mp hh)
  cases hists with
  | nil => exact absurd rfl hne
  | cons h0 rest =>
    cases hists' with
    | nil => exact absurd hperm.eq_nil (by simp)
    | cons h0' rest' =>
      refine ⟨CreateSumHistogramNE h0 rest, CreateSumHistogramNE h0' rest', rfl, rfl, ?_⟩
      intro i hi
      have c1 := (createSumHistogramNE_contents rest h0 n (hlen h0 (by simp))
        (fun h hh => hlen h (by simp [hh]))).2 i hi
      have c2 := (createSumHistogramNE_contents rest' h0' n (hlen' h0' (by simp))
        (fun h hh => hlen' h (by simp [hh]))).2 i hi
      have hsum : ((h0 :: rest).map (fun h => h.th1.contents.getD i 0)).sum =
          ((h0' :: rest').map (fun h => h.th1.contents.getD i 0)).sum :=
        (hperm.map (fun h => h.th1.contents.getD i 0)).sum_eq
      constructor
      · rw [c1]; simp only [List.map_cons, List.sum_cons]
      · rw [c1, c2]
        simp only [List.map_cons, List.sum_cons] at hsum
        linarith [hsum]

/-! ### Concrete sample inputs for witnesses -/

/-- A descriptor with default options and no histograms. -/
def sampleDesc : StackedPlotDescriptor :=
  { page_opt := {}, signal_opt := {}, bkg_opt := {}, data_opt := {} }

/-- Background B1 of the spec's sum scenario: contents `[10, 20]`. -/
def histB1 : Hist :=
  { th1 := { edges := [0, 1, 2], contents := [10, 20], errLow := [1, 1], errUp := [1, 1] },
    x_title := "mass", legend_title := "B1" }

/-- Background B2 of the spec's sum scenario: contents `[5, 5]`. -/
def histB2 : Hist :=
  { th1 := { edges := [0, 1, 2], contents := [5, 5], errLow := [1, 1], errUp := [1, 1] },
    x_title := "pt", legend_title := "B2" }

/-- A descriptor populated with the two sample backgrounds, in order. -/
def descTwoBkgs : StackedPlotDescriptor :=
  (sampleDesc.AddBackgroundHistogram histB1 "B1" (2 : Int)).AddBackgroundHistogram
    histB2 "B2" (3 : Int)

theorem createSumHistogram_sum_perm_witness :
    ∃ s s', CreateSumHistogram [histB1, histB2] = Except.ok s ∧
      CreateSumHistogram [histB2, histB1] = Except.ok s' ∧
      ∀ i, i < 2 →
        s.th1.contents.getD i 0 =
          ([histB1, histB2].map (fun h => h.th1.contents.getD i 0)).sum ∧
        s'.th1.contents.getD i 0 = s.th1.contents.getD i 0 :=
  createSumHistogram_sum_perm [histB1, histB2] [histB2, histB1] 2 (by simp)
    (by intro h hh
        rcases List.mem_pair.mp hh with h1 | h2 <;> subst_vars <;> rfl)
    (List.Perm.swap histB2 histB1 [])

/-- C3: the stack built during `Draw` contains the background histograms in
exactly the reverse of their insertion order (the `stack->Add` loop walks the
background list back to front). -/
theorem draw_stack_reverse (st : StackedPlotDescriptor) (has_legend : Bool)
    (hb : st.backgrounds ≠ []) :
    (st.Draw has_legend).stack = some st.backgrounds.reverse := by
  unfold StackedPlotDescriptor.Draw
  cases hbk : st.backgrounds with
  | nil => exact absurd hbk hb
  | cons b0 rest =>
    cases huc : st.bkg_unc_opt <;> cases hd : st.data <;>
      simp [hbk, huc, hd, foldl_append_id, foldr_append_singleton_reverse]

theorem draw_stack_reverse_witness :
    (descTwoBkgs.Draw true).stack = some descTwoBkgs.backgrounds.reverse :=
  draw_stack_reverse descTwoBkgs true
    (by simp [descTwoBkgs, sampleDesc, StackedPlotDescriptor.AddBackgroundHistogram])

/-- C4 counterexample: in a descriptor populated with two background
histograms whose derived attributes differ, the page options at `Draw` time
carry the x-axis title of the second histogram, not of the first —
`UpdatePageOptions` runs for every prepared histogram and overwrites the
shared options each time. -/
theorem pageOptions_first_histogram_counterexample :
    ¬ descTwoBkgs.page_opt.x_title = histB1.x_title := by
  simp [descTwoBkgs, sampleDesc, histB1, histB2,
    StackedPlotDescriptor.AddBackgroundHistogram,
    StackedPlotDescriptor.PrepareHistogram, UpdatePageOptions,
    ApplyHistOptionsEx, ApplyHistOptions]

/-- C4 amended: the shared page options (log flags, y-max scale factor, axis
titles, divide-by-bin-width flag) are overwritten by every histogram added
through `AddSignalHistogram` / `AddBackgroundHistogram` / `AddDataHistogram`,
so at `Draw` time they equal the derived attributes of the last histogram
added, not of the first. -/
theorem pageOptions_last_histogram (st : StackedPlotDescriptor) (h : Hist)
    (t : String) (c : Color) (sf : ℚ) :
    (st.AddBackgroundHistogram h t c).page_opt =
      { x_title := h.x_title, y_title := h.y_title,
        divide_by_bin_width := h.need_divide_by_bin_width,
        log_x := h.use_log_x, log_y := h.use_log_y, y_max_sf := h.max_y_sf } ∧
    (st.AddSignalHistogram h t c sf).page_opt =
      { x_title := h.x_title, y_title := h.y_title,
        divide_by_bin_width := h.need_divide_by_bin_width,
        log_x := h.use_log_x, log_y := h.use_log_y, y_max_sf := h.max_y_sf } ∧
    ∀ st', st.AddDataHistogram h t = Except.ok st' →
      st'.page_opt =
        { x_title := h.x_title, y_title := h.y_title,
          divide_by_bin_width := h.need_divide_by_bin_width,
          log_x := h.use_log_x, log_y := h.use_log_y, y_max_sf := h.max_y_sf } := by
  refine ⟨?_, ?_, ?_⟩
  · cases hdiv : h.need_divide_by_bin_width <;>
      simp [StackedPlotDescriptor.AddBackgroundHistogram,
        StackedPlotDescriptor.PrepareHistogram, UpdatePageOptions,
        ApplyHistOptionsEx, ApplyHistOptions, Hist.DivideByBinWidth, hdiv]
  · cases hdiv : h.need_divide_by_bin_width <;>
      simp [StackedPlotDescriptor.AddSignalHistogram,
        StackedPlotDescriptor.PrepareHistogram, UpdatePageOptions,
        ApplyHistOptionsEx, ApplyHistOptions, Hist.DivideByBinWidth, hdiv]
  · intro st' heq
    cases hd : st.data with
    | some d => simp [StackedPlotDescriptor.AddDataHistogram, hd] at heq
    | none =>
      simp [StackedPlotDescriptor.AddDataHistogram, hd,
        StackedPlotDescriptor.PrepareHistogram, UpdatePageOptions,
        ApplyHistOptionsEx, ApplyHistOptions] at heq
      subst heq
      simp

/-- The descriptor obtained by adding the sample histogram as data to an
empty descriptor (the `AddDataHistogram` call succeeds there). -/
def descWithData : StackedPlotDescriptor :=
  (sampleDesc.AddDataHistogram histB1 "B1").toOption.getD sampleDesc

theorem pageOptions_last_histogram_witness :
    (sampleDesc.AddBackgroundHistogram histB1 "B1" (2 : Int)).page_opt =
      { x_title := histB1.x_title, y_title := histB1.y_title,
        divide_by_bin_width := histB1.need_divide_by_bin_width,
        log_x := histB1.use_log_x, log_y := histB1.use_log_y,
        y_max_sf := histB1.max_y_sf } ∧
    (sampleDesc.AddSignalHistogram histB1 "B1" (2 : Int) 1).page_opt =
      { x_title := histB1.x_title, y_title := histB1.y_title,
        divide_by_bin_width := histB1.need_divide_by_bin_width,
        log_x := histB1.use_log_x, log_y := histB1.use_log_y,
        y_max_sf := histB1.max_y_sf } ∧
    descWithData.page_opt =
      { x_title := histB1.x_title, y_title := histB1.y_title,
        divide_by_bin_width := histB1.need_divide_by_bin_width,
        log_x := histB1.use_log_x, log_y := histB1.use_log_y,
        y_max_sf := histB1.max_y_sf } :=
  ⟨(pageOptions_last_histogram sampleDesc histB1 "B1" (2 : Int) 1).1,
   (pageOptions_last_histogram sampleDesc histB1 "B1" (2 : Int) 1).2.1,
   (pageOptions_last_histogram sampleDesc histB1 "B1" (2 : Int) 1).2.2 descWithData rfl⟩

/-- The blind ranges `Draw` applies to the data histogram: the histogram's
own blind ranges when the data role enables blinding, else none. -/
def StackedPlotDescriptor.dataBlindRanges (st : StackedPlotDescriptor) (d : Hist) :
    MultiRange :=
  if st.data_opt.blind then d.blind_ranges else MultiRange.empty

/-- The point-graph `Draw` builds from the data histogram. -/
def StackedPlotDescriptor.dataGraphOf (st : StackedPlotDescriptor) (d : Hist) :
    List GraphPoint :=
  HistogramToGraph d.th1 st.page_opt.divide_by_bin_width (st.dataBlindRanges d)

/-- The value of the `bkg_sum_hist` shared pointer when the legend is
populated: null unless at least one background exists, styled with the
uncertainty options when those are configured. -/
def StackedPlotDescriptor.bkgSumAtLegend (st : StackedPlotDescriptor) : Option Hist :=
  match st.backgrounds, st.bkg_unc_opt with
  | [], _ => none
  | b0 :: rest, some u => some (ApplyHistOptionsEx (CreateSumHistogramNE b0 rest) u)
  | b0 :: rest, none => some (CreateSumHistogramNE b0 rest)

/-- C5: with a legend requested, `Draw` adds legend entries in exactly this
order: the data entry (if a data histogram is present), then the
background-uncertainty-band entry (if the uncertainty role is configured),
then all signal entries in signal insertion order, then all background
entries in background insertion order. -/
theorem draw_legend_order (st : StackedPlotDescriptor) :
    (st.Draw true).legend_entries = some (
      (match st.data with
       | some d => [{ ref := LegendRef.dataGraph (st.dataGraphOf d),
                      title := d.legend_title, style := st.data_opt.legend_style }]
       | none => []) ++
      (match st.bkg_unc_opt with
       | some u => [{ ref := LegendRef.uncBand st.bkgSumAtLegend,
                      title := u.legend_title, style := u.legend_style }]
       | none => []) ++
      st.signals.map (fun s => { ref := LegendRef.histRef s, title := s.legend_title,
                                 style := st.signal_opt.legend_style }) ++
      st.backgrounds.map (fun b => { ref := LegendRef.histRef b, title := b.legend_title,
                                     style := st.bkg_opt.legend_style })) := by
  unfold StackedPlotDescriptor.Draw StackedPlotDescriptor.bkgSumAtLegend
    StackedPlotDescriptor.dataGraphOf StackedPlotDescriptor.dataBlindRanges
  cases hbk : st.backgrounds <;> cases huc : st.bkg_unc_opt <;> cases hd : st.data <;>
    simp [hbk, huc, hd, foldl_append_singleton, List.append_assoc]

/-- C6: when a data histogram is already set, `AddDataHistogram` fails with
the duplicate-data message.  The guard runs before any state is touched
(`PrepareHistogram` is never reached), so the embedding's error branch is
built from `st.data` alone: the stored data histogram and every other field
are exactly as before the failed call. -/
theorem addDataHistogram_duplicate (st : StackedPlotDescriptor) (d : Hist)
    (hd : st.data = some d) (h : Hist) (t : String) :
    st.AddDataHistogram h t =
      Except.error "Only one data histogram per stack is supported." ∧
    st.data = some d := by
  refine ⟨?_, hd⟩
  simp [StackedPlotDescriptor.AddDataHistogram, hd]

/-- The data histogram stored inside `descWithData`. -/
def preparedDataHist : Hist := descWithData.data.getD histB1

theorem addDataHistogram_duplicate_witness :
    descWithData.AddDataHistogram histB2 "B2" =
      Except.error "Only one data histogram per stack is supported." ∧
    descWithData.data = some preparedDataHist :=
  addDataHistogram_duplicate descWithData preparedDataHist rfl histB2 "B2"

/-- C7: constructing a descriptor from an options collection missing any of
the keys `"sgn_hist"`, `"bkg_hist"`, `"data_hist"` fails with the message
naming that role (the roles are checked in this order), and no descriptor is
produced; with all three present and the uncertainty rule satisfied,
construction succeeds. -/
theorem construct_role_sections (page : PageOptions) (items : ItemCollection) :
    (items.find "sgn_hist" = none →
      StackedPlotDescriptor.construct page items =
        Except.error "Options to draw signal histograms not found.") ∧
    (∀ s, items.find "sgn_hist" = some s → items.find "bkg_hist" = none →
      StackedPlotDescriptor.construct page items =
        Except.error "Options to draw background histograms not found.") ∧
    (∀ s b, items.find "sgn_hist" = some s → items.find "bkg_hist" = some b →
      items.find "data_hist" = none →
      StackedPlotDescriptor.construct page items =
        Except.error "Options to draw data histogram not found.") ∧
    (∀ s b d, items.find "sgn_hist" = some s → items.find "bkg_hist" = some b →
      items.find "data_hist" = some d →
      ((HistOptionsOfItem b).DrawUnc = true →
        (items.find (HistOptionsOfItem b).unc_hist).isSome) →
      ∃ desc, StackedPlotDescriptor.construct page items = Except.ok desc) := by
  refine ⟨?_, ?_, ?_, ?_⟩
  · intro hs
    simp [StackedPlotDescriptor.construct, hs]
  · intro s hs hb
    simp [StackedPlotDescriptor.construct, hs, hb]
  · intro s b hs hb hd
    simp [StackedPlotDescriptor.construct, hs, hb, hd]
  · intro s b d hs hb hd hunc
    unfold StackedPlotDescriptor.construct
    rw [hs, hb, hd]
    by_cases hdu : (HistOptionsOfItem b).DrawUnc = true
    · obtain ⟨u, hu⟩ := Option.isSome_iff_exists.mp (hunc hdu)
      simp [hdu, hu]
    · simp only [Bool.not_eq_true] at hdu
      simp [hdu]

/-- An options collection with the background section missing. -/
def itemsMissingBkg : ItemCollection := [("sgn_hist", {}), ("data_hist", {})]

/-- An options collection with all three mandatory sections present and
uncertainty drawing disabled. -/
def itemsAllPresent : ItemCollection :=
  [("sgn_hist", {}), ("bkg_hist", {}), ("data_hist", {})]

theorem construct_role_sections_witness :
    StackedPlotDescriptor.construct {} itemsMissingBkg =
      Except.error "Options to draw background histograms not found." ∧
    ∃ desc, StackedPlotDescriptor.construct {} itemsAllPresent = Except.ok desc :=
  ⟨(construct_role_sections {} itemsMissingBkg).2.1 {} rfl rfl,
   (construct_role_sections {} itemsAllPresent).2.2.2 {} {} {} rfl rfl rfl
     (fun hdu => absurd hdu (by decide))⟩

/-- C8: with the three mandatory sections present, the named uncertainty
section is required if and only if the background options enable uncertainty
drawing: enabled plus absent section is a configuration error; not enabled
means construction succeeds with the stored uncertainty options unset, no
matter whether any uncertainty section exists. -/
theorem construct_unc_rule (page : PageOptions) (items : ItemCollection)
    (s b d : Item)
    (hs : items.find "sgn_hist" = some s) (hb : items.find "bkg_hist" = some b)
    (hd : items.find "data_hist" = some d) :
    ((HistOptionsOfItem b).DrawUnc = true →
      items.find (HistOptionsOfItem b).unc_hist = none →
      StackedPlotDescriptor.construct page items =
        Except.error "Options to draw background uncertainties not found.") ∧
    ((HistOptionsOfItem b).DrawUnc = false →
      ∃ desc, StackedPlotDescriptor.construct page items = Except.ok desc ∧
        desc.bkg_unc_opt = none) := by
  constructor
  · intro hdu hnone
    unfold StackedPlotDescriptor.construct
    rw [hs, hb, hd]
    simp [hdu, hnone]
  · intro hdu
    unfold StackedPlotDescriptor.construct
    rw [hs, hb, hd]
    simp [hdu]

/-- Background options that enable uncertainty drawing and point at the
section `"bkg_unc"`. -/
def bkgUncItem : Item := { draw_unc := true, unc_hist := "bkg_unc" }

/-- All three mandatory sections present, uncertainty enabled, but the
referenced `"bkg_unc"` section absent. -/
def itemsUncMissing : ItemCollection :=
  [("sgn_hist", {}), ("bkg_hist", bkgUncItem), ("data_hist", {})]

theorem construct_unc_rule_witness :
    StackedPlotDescriptor.construct {} itemsUncMissing =
      Except.error "Options to draw background uncertainties not found." ∧
    ∃ desc, StackedPlotDescriptor.construct {} itemsAllPresent = Except.ok desc ∧
      desc.bkg_unc_opt = none :=
  ⟨(construct_unc_rule {} itemsUncMissing {} bkgUncItem {} rfl rfl rfl).1 rfl rfl,
   (construct_unc_rule {} itemsAllPresent {} {} {} rfl rfl rfl).2 rfl⟩

/-- C9: every point of `HistogramToGraph` comes from one retained bin; with
`divide_by_bin_width` set, its y value and both y errors are the bin's
content and stored errors divided by the bin width, with the flag unset they
are the content and errors unchanged, and the x value and the two x errors do
not depend on the flag. -/
theorem histogramToGraph_divide_flag (hist : TH1) (br : MultiRange) (d : Bool)
    (p : GraphPoint) (hp : p ∈ HistogramToGraph hist d br) :
    ∃ bin ∈ retainedBins hist br,
      p = mkGraphPoint hist d bin ∧
      (mkGraphPoint hist true bin).y = hist.GetBinContent bin / hist.GetBinWidth bin ∧
      (mkGraphPoint hist true bin).eyl = hist.GetBinErrorLow bin / hist.GetBinWidth bin ∧
      (mkGraphPoint hist true bin).eyh = hist.GetBinErrorUp bin / hist.GetBinWidth bin ∧
      (mkGraphPoint hist false bin).y = hist.GetBinContent bin ∧
      (mkGraphPoint hist false bin).eyl = hist.GetBinErrorLow bin ∧
      (mkGraphPoint hist false bin).eyh = hist.GetBinErrorUp bin ∧
      (mkGraphPoint hist true bin).x = (mkGraphPoint hist false bin).x ∧
      (mkGraphPoint hist true bin).exl = (mkGraphPoint hist false bin).exl ∧
      (mkGraphPoint hist true bin).exh = (mkGraphPoint hist false bin).exh := by
  rw [histogramToGraph_eq_map] at hp
  obtain ⟨bin, hbin, rfl⟩ := List.mem_map.mp hp
  exact ⟨bin, hbin, rfl, rfl, rfl, rfl, rfl, rfl, rfl, rfl, rfl, rfl⟩

theorem histogramToGraph_divide_flag_witness :
    ∃ bin ∈ retainedBins histB1.th1 [],
      mkGraphPoint histB1.th1 true 1 = mkGraphPoint histB1.th1 true bin ∧
      (mkGraphPoint histB1.th1 true bin).y =
        histB1.th1.GetBinContent bin / histB1.th1.GetBinWidth bin ∧
      (mkGraphPoint histB1.th1 true bin).eyl =
        histB1.th1.GetBinErrorLow bin / histB1.th1.GetBinWidth bin ∧
      (mkGraphPoint histB1.th1 true bin).eyh =
        histB1.th1.GetBinErrorUp bin / histB1.th1.GetBinWidth bin ∧
      (mkGraphPoint histB1.th1 false bin).y = histB1.th1.GetBinContent bin ∧
      (mkGraphPoint histB1.th1 false bin).eyl = histB1.th1.GetBinErrorLow bin ∧
      (mkGraphPoint histB1.th1 false bin).eyh = histB1.th1.GetBinErrorUp bin ∧
      (mkGraphPoint histB1.th1 true bin).x = (mkGraphPoint histB1.th1 false bin).x ∧
      (mkGraphPoint histB1.th1 true bin).exl = (mkGraphPoint histB1.th1 false bin).exl ∧
      (mkGraphPoint histB1.th1 true bin).exh = (mkGraphPoint histB1.th1 false bin).exh :=
  histogramToGraph_divide_flag histB1.th1 [] true
    (mkGraphPoint histB1.th1 true 1)
    (by rw [histogramToGraph_eq_map]
        exact List.mem_map.mpr ⟨1, by decide, rfl⟩)

/-- C10: with uncertainty options configured but no background ever added,
`Draw` with a legend still adds the background-uncertainty entry, and that
entry references the null `bkg_sum_hist`; the background sum is never
created, and no uncertainty band is drawn on the main pad. -/
theorem draw_unc_entry_without_backgrounds (st : StackedPlotDescriptor)
    (u : HistOptions) (hu : st.bkg_unc_opt = some u) (hb : st.backgrounds = []) :
    (∃ entries, (st.Draw true).legend_entries = some entries ∧
      ({ ref := LegendRef.uncBand none, title := u.legend_title,
         style := u.legend_style } : LegendEntry) ∈ entries) ∧
    (st.Draw true).bkg_sum_hist = none ∧
    ∀ h, MainItem.uncBand h ∉ (st.Draw true).main_drawn := by
  unfold StackedPlotDescriptor.Draw
  cases hd : st.data <;>
    simp [hu, hb, hd, foldl_append_singleton, foldl_append_id]

/-- Uncertainty-role options used in the sample collections. -/
def uncOptItem : Item := { legend_title := "Bkg. uncertainty" }

/-- All sections present, uncertainty enabled and its section present. -/
def itemsUncPresent : ItemCollection :=
  [("sgn_hist", {}), ("bkg_hist", bkgUncItem), ("data_hist", {}),
   ("bkg_unc", uncOptItem)]

/-- A successfully constructed descriptor with uncertainty options configured
and no histograms added. -/
def descUncNoBkg : StackedPlotDescriptor :=
  (StackedPlotDescriptor.construct {} itemsUncPresent).toOption.getD sampleDesc

theorem draw_unc_entry_without_backgrounds_witness :
    (∃ entries, (descUncNoBkg.Draw true).legend_entries = some entries ∧
      ({ ref := LegendRef.uncBand none, title := uncOptItem.legend_title,
         style := uncOptItem.legend_style } : LegendEntry) ∈ entries) ∧
    (descUncNoBkg.Draw true).bkg_sum_hist = none ∧
    ∀ h, MainItem.uncBand h ∉ (descUncNoBkg.Draw true).main_drawn :=
  draw_unc_entry_without_backgrounds descUncNoBkg uncOptItem rfl rfl

end AnalysisTools
